import Mathlib

/-!
# Verification of the scripture-reference resolution engine

Shallow embedding of `src/liturgical_display/services/scriptura_service.py`
(class `ScripturaService`).  Python strings are modelled as `List Char`
(`Str`), Python `dict` chapter payloads as association lists, and the
network collaborator `_get_chapter_data` as an explicit function parameter
`fetch : Provider` (returning `none` for a failed request, an empty
response, or a response without a usable `verses` mapping — all of which
the source treats as "no chapter data").  Exception-raising operations
(`int(...)` on a non-numeric token) are modelled with `Option`: a `none`
is the exception that the source catches at function level, turning the
whole resolution into the bracketed sentinel string.  All functions are
total, which is how the source's "never raises past the top-level
try/except" behaviour surfaces in the embedding.
-/

/-- Python strings are modelled as lists of characters. -/
abbrev Str := List Char

/-- A chapter's verse mapping: `chapter_data['verses']`, an association list
from verse-number-as-string to verse text (Python `dict` preserving the
provider's key order; `.get` takes the first matching key). -/
abbrev Verses := List (Str × Str)

/-- The verse-data collaborator: `_get_chapter_data(book, chapter)`.
`none` models a failed request / empty payload (`if not chapter_data`). -/
abbrev Provider := Str → Str → Option Verses

/-- One entry of the `verses_data` / `all_verses` lists built by the source:
`{'verse': str(n), 'text': verse_text}`. -/
structure VerseRecord where
  verse : Str
  text : Str
deriving DecidableEq, Repr

/-! ## Python string primitives (character-level semantics) -/

/-- Python's notion of whitespace for `str.strip()` / `str.split()` /
the regex class `\s`. -/
def isPyWhitespace (c : Char) : Bool :=
  c = ' ' || c = '\t' || c = '\n' || c = '\r' || c = '\x0b' || c = '\x0c'

/-- Drop trailing characters satisfying `p`. -/
def dropTrailWhile (p : Char → Bool) (l : Str) : Str :=
  (l.reverse.dropWhile p).reverse

/-- Python `str.strip()`: remove leading and trailing whitespace. -/
def pyStrip (l : Str) : Str :=
  dropTrailWhile isPyWhitespace (l.dropWhile isPyWhitespace)

/-- Python `str.lower()` (ASCII usage only in this codebase). -/
def lowerStr (l : Str) : Str := l.map Char.toLower

/-- Python `str.count(c)` for a single-character argument. -/
def countChar (c : Char) (l : Str) : Nat := (l.filter (· = c)).length

/-- Python `str.split(c)` for a single-character separator: keeps empty
pieces, and `"".split(c) == [""]`. -/
def splitAllChar (c : Char) : Str → List Str
  | [] => [[]]
  | a :: rest =>
    if a = c then [] :: splitAllChar c rest
    else
      match splitAllChar c rest with
      | [] => [[a]]
      | s :: ss => (a :: s) :: ss

/-- Python `s.split(c, 1)` under a guard that `c ∈ s`: the pair of the part
before the first occurrence of `c` and everything after it.  (When `c` is
absent it returns `(s, [])`; every call site in the source first checks
`c in s`, mirroring the Python guards.) -/
def breakAtChar (c : Char) : Str → Str × Str
  | [] => ([], [])
  | a :: rest =>
    if a = c then ([], rest)
    else ((a :: (breakAtChar c rest).1, (breakAtChar c rest).2))

/-- Python `s.rsplit(c, 1)`: split at the last occurrence of `c`, `none`
when `c` is absent (the `len(parts) == 2` test in the source). -/
def breakAtLastChar (c : Char) (l : Str) : Option (Str × Str) :=
  if l.contains c then
    some ((breakAtChar c l.reverse).2.reverse, (breakAtChar c l.reverse).1.reverse)
  else none

/-- Python `str.split()` (no argument): maximal runs of non-whitespace. -/
def pyWords : Str → List Str
  | [] => []
  | c :: rest =>
    if isPyWhitespace c then pyWords rest
    else
      match pyWords rest with
      | [] => [[c]]
      | w :: ws =>
        match rest with
        | [] => [[c]]
        | r :: _ => if isPyWhitespace r then [c] :: w :: ws else (c :: w) :: ws

/-- Python `' '.join(words)`. -/
def joinWords (ws : List Str) : Str := (List.intersperse (' ' :: []) ws).flatten

/-- `''.join(c for c in s if c.isdigit())`. -/
def digitsOnly (l : Str) : Str := l.filter Char.isDigit

/-- Python `str.isdigit()` (ASCII digits; the source's keys are ASCII). -/
def isDigitStr (l : Str) : Bool := !l.isEmpty && l.all Char.isDigit

/-- Numeric value of a digit string. -/
def toNatDigits (l : Str) : Nat :=
  l.foldl (fun n c => 10 * n + (c.toNat - '0'.toNat)) 0

/-- Python `int(s.strip())` on the verse tokens of this service, as an
`Option`: `none` is the `ValueError` that the source catches at function
level.  (Tokens here are digit runs; signs and underscores never occur.) -/
def pyInt? (l : Str) : Option Nat :=
  let t := pyStrip l
  if isDigitStr t then some (toNatDigits t) else none

/-- Python `str(n)` for a non-negative integer. -/
def natToStr (n : Nat) : Str := (toString n).toList

/-- Python `max` over a non-empty list (as `Option` for the empty case,
which the source guards with `if verse_numbers:`). -/
def maxNat? : List Nat → Option Nat
  | [] => none
  | a :: rest =>
    match maxNat? rest with
    | none => some a
    | some m => some (max a m)

/-- `chapter_data['verses'].get(key)`: first binding of `key`. -/
def lookupVerse : Verses → Str → Option Str
  | [], _ => none
  | (k, t) :: rest, key => if k = key then some t else lookupVerse rest key

/-- `[int(v) for v in chapter_data['verses'].keys() if v.isdigit()]`,
then `max(...)` when non-empty. -/
def maxIntKeys (vs : Verses) : Option Nat :=
  maxNat? (vs.filterMap fun p => if isDigitStr p.1 then some (toNatDigits p.1) else none)

/-! ## The embedded service -/

/-- `f"[Reading: {reference}]"` — the unresolved sentinel. -/
def sentinel (reference : Str) : Str :=
  "[Reading: ".toList ++ reference ++ "]".toList

/-- The loop `for verse_num in range(start_verse, end_verse + 1)` collecting
`{'verse': str(n), 'text': t}` for each verse present with truthy text
(`if verse_text:` skips both a missing key and empty text). -/
def collectRange (vs : Verses) (a b : Nat) : List VerseRecord :=
  (List.range' a (b + 1 - a)).filterMap fun n =>
    match lookupVerse vs (natToStr n) with
    | some t => if t = [] then none else some ⟨natToStr n, t⟩
    | none => none

/-- The single-verse branch: `chapter_data['verses'].get(verse_part)` with
the same truthiness skip. -/
def collectSingle (vs : Verses) (key : Str) : List VerseRecord :=
  match lookupVerse vs key with
  | some t => if t = [] then [] else [⟨key, t⟩]
  | none => []

/-- `_normalize_book_name`: the static synonym table (all four keys map to
`"Psalms"`); unmapped names pass through. -/
def normalize_book_name (book : Str) : Str :=
  if book = "Psalm".toList ∨ book = "Ps".toList ∨
      book = "PSALM".toList ∨ book = "PSALMS".toList
  then "Psalms".toList else book

/-- `_clean_verse_suffix`: a range keeps its start untouched and strips all
non-digits from the part after the first `'-'`; a token without `'-'` is
stripped to its digits. -/
def clean_verse_suffix (vp : Str) : Str :=
  if vp.contains '-' = true then
    (breakAtChar '-' vp).1 ++ '-' :: digitsOnly (breakAtChar '-' vp).2
  else digitsOnly vp

/-- The `prefixes_to_remove` list of `_clean_reference`, in source order. -/
def prefixes_to_remove : List Str :=
  ["First Reading:".toList, "Second Reading:".toList, "Gospel:".toList,
   "Psalm:".toList, "Old Testament:".toList, "New Testament:".toList,
   "Epistle:".toList]

/-- `_clean_reference`: strip the input, then run one pass over the prefix
list in order, removing (and re-stripping after) each prefix that matches
the current head of the string at that point in the pass. -/
def clean_reference (reference : Str) : Str :=
  prefixes_to_remove.foldl
    (fun cleaned p =>
      if p.isPrefixOf cleaned = true then pyStrip (cleaned.drop p.length) else cleaned)
    (pyStrip reference)

/-- `book_chapter.rsplit(' ', 1)` plus the `len == 2` branch of the source:
two pieces are stripped; with no space the chapter defaults to `"1"`. -/
def splitBookChapter (bc : Str) : Str × Str :=
  match breakAtLastChar ' ' bc with
  | some (b, c) => (pyStrip b, pyStrip c)
  | none => (bc, "1".toList)

/-- `_parse_reference`: `none` is the Python `None` ("complex reference").
The source's `except` fallback `("Genesis","1","1")` is unreachable (no
operation in the body raises) and is therefore not modelled. -/
def parse_reference (reference : Str) : Option (Str × Str × Str) :=
  if reference.contains ',' = true then none
  else if reference.contains '-' = true ∧ reference.contains ':' = true ∧
      2 ≤ countChar ':' reference then none
  else
    match splitAllChar ':' reference with
    | [bc0, vp0] =>
      let bc := pyStrip bc0
      let vp := pyStrip vp0
      some (normalize_book_name (splitBookChapter bc).1, (splitBookChapter bc).2,
        clean_verse_suffix vp)
    | _ => some (normalize_book_name (pyStrip reference), "1".toList, "1".toList)

/-- The regex `^(.+?)\s+(\d+):(\d+)-(\d+):(\d+)$` of
`_handle_cross_chapter_reference`: strip a non-empty trailing digit run. -/
def stripTrailDigits (l : Str) : Option (Str × Str) :=
  let ds := (l.reverse.takeWhile Char.isDigit).reverse
  if ds = [] then none else some (l.take (l.length - ds.length), ds)

/-- Require the last character to be `c` and drop it. -/
def stripTrailChar (c : Char) (l : Str) : Option Str :=
  match l.reverse with
  | a :: rest => if a = c then some rest.reverse else none
  | [] => none

/-- `re.match(r'^(.+?)\s+(\d+):(\d+)-(\d+):(\d+)$', t)` with
`book = group(1).strip()` and the four integer groups.  Because every
`\d+` is bounded by a mandatory non-digit literal (or the end anchor), the
match is equivalent to this right-to-left parse; the lazy `(.+?)` takes
everything before the whitespace run preceding the first group (it must be
non-empty and, since `.` does not match a newline, newline-free). -/
def matchCrossChapter (t : Str) : Option (Str × Nat × Nat × Nat × Nat) :=
  match stripTrailDigits t with
  | none => none
  | some (r1, v2s) =>
    match stripTrailChar ':' r1 with
    | none => none
    | some r2 =>
      match stripTrailDigits r2 with
      | none => none
      | some (r3, c2s) =>
        match stripTrailChar '-' r3 with
        | none => none
        | some r4 =>
          match stripTrailDigits r4 with
          | none => none
          | some (r5, v1s) =>
            match stripTrailChar ':' r5 with
            | none => none
            | some r6 =>
              match stripTrailDigits r6 with
              | none => none
              | some (r7, c1s) =>
                let pfx := dropTrailWhile isPyWhitespace r7
                if pfx.length = r7.length then none
                else if pfx = [] then none
                else if pfx.contains '\n' = true then none
                else some (pyStrip pfx, toNatDigits c1s, toNatDigits v1s,
                  toNatDigits c2s, toNatDigits v2s)

/-- The `end_verse` computation of `_get_reading_text` lines 95-101: the
maximum integer verse key, or the start verse when there is none. -/
def endForRange (vs : Verses) (start : Nat) : Nat :=
  match maxIntKeys vs with
  | some m => m
  | none => start

/-- Lines 89-120 of `_get_reading_text`: extract `verses_data` from the
fetched chapter for a (already suffix-cleaned) verse-range token.
`none` models the `ValueError` of `int(...)` on a non-numeric endpoint,
which the enclosing `try` converts into the sentinel. -/
def extractVerses (vs : Verses) (verse_range : Str) : Option (List VerseRecord) :=
  if verse_range.contains '-' = true then
    match pyInt? (breakAtChar '-' verse_range).1 with
    | none => none
    | some start =>
      if lowerStr (pyStrip (breakAtChar '-' verse_range).2) = "end".toList then
        some (collectRange vs start (endForRange vs start))
      else
        match pyInt? (breakAtChar '-' verse_range).2 with
        | none => none
        | some e2 => some (collectRange vs start e2)
  else some (collectSingle vs verse_range)

/-! ## The HTML formatter -/

/-- `_wrap_verse_with_nowrap`: verse number plus the first two words inside
a `nowrap` span, remainder outside; with fewer than two words the whole
text goes inside. -/
def wrap_verse_with_nowrap (verse_number text : Str) : Str :=
  let words := pyWords text
  if 2 ≤ words.length then
    "<span class=\"nowrap\"><span class=\"verse-number\">".toList ++ verse_number ++
      "</span> ".toList ++ joinWords (words.take 2) ++ "</span> ".toList ++
      joinWords (words.drop 2)
  else
    "<span class=\"nowrap\"><span class=\"verse-number\">".toList ++ verse_number ++
      "</span> ".toList ++ text ++ "</span>".toList

/-- `f'<span class="verse">{wrapped_text}</span>'`. -/
def verseSpan (number p : Str) : Str :=
  "<span class=\"verse\">".toList ++ wrap_verse_with_nowrap number p ++ "</span>".toList

/-- `[part.strip() for part in clean_text.split('¶') if part.strip()]`. -/
def nonEmptyParts (clean : Str) : List Str :=
  ((splitAllChar '¶' clean).map pyStrip).filter (fun p => p ≠ [])

/-- The `i > 0` arm of the pilcrow loop: each later part closes the current
paragraph, opens a new one, and is wrapped — verse number included — like
the first part. -/
def laterParts (number : Str) : List Str → List Str
  | [] => []
  | p :: ps =>
    "</p><p class=\"reading-paragraph\">".toList :: verseSpan number p ::
      laterParts number ps

/-- The per-verse fragment list appended to `html_parts` by the loop body of
`_format_reading_paragraph` (empty for a record with falsy text). -/
def verseHtmlParts (v : VerseRecord) : List Str :=
  if v.text = [] then []
  else
    let clean := pyStrip v.text
    if clean.contains '¶' = true then
      match nonEmptyParts clean with
      | [] => []
      | p :: ps => verseSpan v.verse p :: laterParts v.verse ps
    else [verseSpan v.verse clean]

/-- `_format_reading_paragraph`: `""` on an empty list, otherwise
`''.join` of the opening wrapper, every verse's fragments, and the final
closing tag. -/
def format_reading_paragraph (verses : List VerseRecord) : Str :=
  if verses = [] then []
  else
    List.flatten ("<p class=\"reading-paragraph\">".toList ::
      (verses.map verseHtmlParts).flatten ++ ["</p>".toList])

/-! ## The resolution pipeline -/

/-- The `if all_verses: return format(...) else return sentinel` tail shared
by `_get_reading_text`, `_handle_discontinuous_range` and
`_handle_cross_chapter_reference`. -/
def finishVerses (reference : Str) (l : List VerseRecord) : Str :=
  if l = [] then sentinel reference else format_reading_paragraph l

/-- `_handle_cross_chapter_reference`. -/
def handle_cross_chapter_reference (fetch : Provider) (reference : Str) : Str :=
  match matchCrossChapter (pyStrip reference) with
  | none => sentinel reference
  | some (book, c1, v1, c2, v2) =>
    let l :=
      if c1 = c2 then
        match fetch book (natToStr c1) with
        | none => []
        | some vs => collectRange vs v1 v2
      else
        (match fetch book (natToStr c1) with
         | none => []
         | some vs =>
           match maxIntKeys vs with
           | none => []
           | some m => collectRange vs v1 m) ++
        (match fetch book (natToStr c2) with
         | none => []
         | some vs => collectRange vs 1 v2)
    finishVerses reference l

/-- The body of `_handle_discontinuous_range`'s per-part processing after
the segment's book and chapter are settled: fetch (a failed fetch is the
`continue`, contributing no verses), suffix-clean, then range or single
extraction.  `none` is an endpoint `int(...)` `ValueError`, which aborts
the whole resolution. -/
def fetchExtract (fetch : Provider) (b c vp0 : Str) : Option (List VerseRecord) :=
  match fetch b c with
  | none => some []
  | some vs =>
    let vp := clean_verse_suffix vp0
    if vp.contains '-' = true then
      match pyInt? (breakAtChar '-' vp).1, pyInt? (breakAtChar '-' vp).2 with
      | some a, some b2 => some (collectRange vs a b2)
      | _, _ => none
    else some (collectSingle vs vp)

/-- One iteration of the `for part in parts` loop: a part with a colon
re-specifies "Book Chapter:", a bare part reuses the first segment's
defaults. -/
def partContribution (fetch : Provider) (book chapter : Str) (part0 : Str) :
    Option (List VerseRecord) :=
  let part := pyStrip part0
  if part.contains ':' = true then
    fetchExtract fetch
      (normalize_book_name (splitBookChapter (breakAtChar ':' part).1).1)
      (splitBookChapter (breakAtChar ':' part).1).2
      (breakAtChar ':' part).2
  else fetchExtract fetch book chapter part

/-- The whole `for part in parts` loop accumulating `all_verses` in segment
order; `none` propagates an endpoint parse exception. -/
def allParts (fetch : Provider) (book chapter : Str) : List Str → Option (List VerseRecord)
  | [] => some []
  | p :: rest =>
    match partContribution fetch book chapter p with
    | none => none
    | some l =>
      match allParts fetch book chapter rest with
      | none => none
      | some r => some (l ++ r)

/-- `_handle_discontinuous_range`. -/
def handle_discontinuous_range (fetch : Provider) (reference : Str) : Str :=
  let parts := splitAllChar ',' reference
  let first := pyStrip (parts.headD [])
  if first.contains ':' = false then sentinel reference
  else
    let bc0 := (breakAtChar ':' first).1
    let book := normalize_book_name (splitBookChapter bc0).1
    let chapter := (splitBookChapter bc0).2
    match allParts fetch book chapter parts with
    | none => sentinel reference
    | some l => finishVerses reference l

/-- `_handle_complex_reference`. -/
def handle_complex_reference (fetch : Provider) (reference : Str) : Str :=
  if reference.contains ',' = true then handle_discontinuous_range fetch reference
  else if reference.contains '-' = true ∧ reference.contains ':' = true ∧
      2 ≤ countChar ':' reference then
    handle_cross_chapter_reference fetch reference
  else sentinel reference

/-- `_get_reading_text`: clean, parse, fetch, extract, format; every failure
(no chapter data, an endpoint exception, or an empty extraction) returns
the sentinel built from the *original* argument, while the complex-path
handlers receive — and build their sentinels from — the *cleaned*
reference. -/
def _get_reading_text (fetch : Provider) (reference : Str) : Str :=
  match parse_reference (clean_reference reference) with
  | none => handle_complex_reference fetch (clean_reference reference)
  | some (book, chapter, verse_range) =>
    match fetch book chapter with
    | none => sentinel reference
    | some chapterVerses =>
      match extractVerses chapterVerses verse_range with
      | none => sentinel reference
      | some verses_data => finishVerses reference verses_data

/-- An element of the `readings` list of `get_reading_contents`: a
reference string or any other value (kept as-is). -/
inductive Reading (α : Type) where
  | ref (s : Str)
  | other (o : α)
deriving DecidableEq, Repr

/-- An output element for a string input: `{'reference': ..., 'text': ...}`. -/
structure EnrichedReading where
  reference : Str
  text : Str
deriving DecidableEq, Repr

/-- The result element type of `get_reading_contents`. -/
inductive ReadingOut (α : Type) where
  | enriched (e : EnrichedReading)
  | other (o : α)
deriving DecidableEq, Repr

/-- `get_reading_contents`: every string is replaced by a dictionary with
its resolved text; every non-string passes through unchanged.  (The outer
`except` branch is unreachable: the body raises nothing.) -/
def get_reading_contents {α : Type} (fetch : Provider) (readings : List (Reading α)) :
    List (ReadingOut α) :=
  readings.map fun r =>
    match r with
    | .ref s => .enriched ⟨s, _get_reading_text fetch s⟩
    | .other o => .other o

/-! ## Helper lemmas -/

/-- The shared tail returns either the sentinel or formatted non-empty
verses. -/
lemma finish_disj (r : Str) (l : List VerseRecord) :
    finishVerses r l = sentinel r ∨
    ∃ l', l' ≠ [] ∧ finishVerses r l = format_reading_paragraph l' := by
  unfold finishVerses
  split
  · exact Or.inl rfl
  · next h => exact Or.inr ⟨_, h, rfl⟩

/-- Every branch of `_handle_cross_chapter_reference` returns either the
sentinel of its (already cleaned) argument or the formatted rendering of a
non-empty verse list. -/
lemma cross_chapter_disj (fetch : Provider) (r : Str) :
    handle_cross_chapter_reference fetch r = sentinel r ∨
    ∃ l, l ≠ [] ∧ handle_cross_chapter_reference fetch r = format_reading_paragraph l := by
  unfold handle_cross_chapter_reference
  split
  · exact Or.inl rfl
  · exact finish_disj r _

/-- Every branch of `_handle_discontinuous_range` returns either the
sentinel of its argument or the formatted rendering of a non-empty verse
list. -/
lemma discontinuous_disj (fetch : Provider) (r : Str) :
    handle_discontinuous_range fetch r = sentinel r ∨
    ∃ l, l ≠ [] ∧ handle_discontinuous_range fetch r = format_reading_paragraph l := by
  unfold handle_discontinuous_range
  dsimp only
  split
  · exact Or.inl rfl
  · split
    · exact Or.inl rfl
    · exact finish_disj r _

/-- Every branch of `_handle_complex_reference` returns either the sentinel
of its argument or formatted non-empty verses. -/
lemma complex_disj (fetch : Provider) (r : Str) :
    handle_complex_reference fetch r = sentinel r ∨
    ∃ l, l ≠ [] ∧ handle_complex_reference fetch r = format_reading_paragraph l := by
  unfold handle_complex_reference
  split
  · exact discontinuous_disj fetch r
  · split
    · exact cross_chapter_disj fetch r
    · exact Or.inl rfl

/-- The resolution entry point is total and returns either the sentinel of
the original reference, the sentinel of the cleaned reference, or the
formatted rendering of a non-empty verse list. -/
lemma reading_text_disj (fetch : Provider) (reference : Str) :
    _get_reading_text fetch reference = sentinel reference ∨
    _get_reading_text fetch reference = sentinel (clean_reference reference) ∨
    ∃ l, l ≠ [] ∧ _get_reading_text fetch reference = format_reading_paragraph l := by
  unfold _get_reading_text
  cases hp : parse_reference (clean_reference reference) with
  | none =>
    rcases complex_disj fetch (clean_reference reference) with h | ⟨l, hl, h⟩
    · exact Or.inr (Or.inl h)
    · exact Or.inr (Or.inr ⟨l, hl, h⟩)
  | some x =>
    obtain ⟨book, chapter, verse_range⟩ := x
    dsimp only
    cases hf : fetch book chapter with
    | none => exact Or.inl rfl
    | some vs =>
      dsimp only
      cases he : extractVerses vs verse_range with
      | none => exact Or.inl rfl
      | some l =>
        rcases finish_disj reference l with h | ⟨l', hl', h⟩
        · exact Or.inl h
        · exact Or.inr (Or.inr ⟨l', hl', h⟩)

/-- A `.contains` fact for a list with an explicit occurrence. -/
lemma contains_append_cons (s e : Str) (c : Char) : (s ++ c :: e).contains c = true := by
  induction s with
  | nil => simp [List.contains_cons]
  | cons a s ih => simp [List.contains_cons, ih]

/-- `breakAtChar` splits at an explicit first occurrence. -/
lemma breakAtChar_append (s e : Str) (c : Char) (h : s.contains c = false) :
    breakAtChar c (s ++ c :: e) = (s, e) := by
  induction s with
  | nil => simp [breakAtChar]
  | cons a s ih =>
    rw [List.contains_cons, Bool.or_eq_false_iff] at h
    have hne : a ≠ c := by
      intro hh
      subst hh
      simp at h
    simp [breakAtChar, hne, ih h.2]

/-- A cleaning pass over prefixes none of which matches leaves the string
unchanged. -/
lemma foldl_no_strip (ps : List Str) (s : Str)
    (h : ∀ p ∈ ps, p.isPrefixOf s = false) :
    ps.foldl
      (fun cleaned p =>
        if p.isPrefixOf cleaned = true then pyStrip (cleaned.drop p.length) else cleaned)
      s = s := by
  induction ps with
  | nil => rfl
  | cons p ps ih =>
    have hp := h p (List.mem_cons_self p ps)
    simp only [List.foldl_cons, hp, Bool.false_eq_true, if_false]
    exact ih fun q hq => h q (List.mem_cons_of_mem p hq)

/-! ## Claims -/

/-- A provider holding Isaiah 6 with thirteen verses, under which both
branches of the example alternative reference are fully resolvable. -/
def isaiahProvider : Provider := fun b c =>
  if b = "Isaiah".toList ∧ c = "6".toList then
    some ((List.range' 1 13).map fun n => (natToStr n, "Isaiah 6 verse ".toList ++ natToStr n))
  else none

/-- A provider whose every fetch fails. -/
def noProvider : Provider := fun _ _ => none

/-- C1 (counterexample): the source performs no " or " splitting at all.
Under a provider on which each branch of "Isaiah 6:1-4 or Isaiah 6:1-8"
resolves on its own, the whole reference still resolves to the flat
unresolved sentinel string — there is no alternatives structure and no
per-branch resolution, contradicting the claimed
`is_alternative = true` result with one resolved alternative per branch. -/
theorem C1_counterexample :
    _get_reading_text isaiahProvider ("Isaiah 6:1-4 or Isaiah 6:1-8".toList) =
      sentinel ("Isaiah 6:1-4 or Isaiah 6:1-8".toList) ∧
    _get_reading_text isaiahProvider ("Isaiah 6:1-4".toList) ≠
      sentinel ("Isaiah 6:1-4".toList) ∧
    _get_reading_text isaiahProvider ("Isaiah 6:1-8".toList) ≠
      sentinel ("Isaiah 6:1-8".toList) := by
  refine ⟨rfl, by decide, by decide⟩

/-- C1 (amended): a reference containing the delimiter " or " receives no
special treatment: `_get_reading_text` returns a flat string (there is no
alternatives structure in its result type), the reference flows through
the ordinary pipeline, and "Isaiah 6:1-4 or Isaiah 6:1-8" — routed to the
cross-chapter handler, whose pattern it fails — yields the unresolved
sentinel for every provider, without any fetch being consulted. -/
theorem C1_no_or_splitting :
    ∀ fetch : Provider,
      _get_reading_text fetch ("Isaiah 6:1-4 or Isaiah 6:1-8".toList) =
        sentinel ("Isaiah 6:1-4 or Isaiah 6:1-8".toList) :=
  fun _ => rfl

/-- C2 (counterexample): on the complex-reference path the sentinel embeds
the *cleaned* reference, not the original as passed in: with every fetch
failing, "Gospel: John 3:16-4:2" resolves to "[Reading: John 3:16-4:2]",
which differs from the claimed "[Reading: Gospel: John 3:16-4:2]". -/
theorem C2_counterexample :
    _get_reading_text noProvider ("Gospel: John 3:16-4:2".toList) =
      "[Reading: John 3:16-4:2]".toList ∧
    "[Reading: John 3:16-4:2]".toList ≠
      "[Reading: Gospel: John 3:16-4:2]".toList := by
  refine ⟨rfl, by decide⟩

/-- C2 (amended): `_get_reading_text` is total (it never raises: every
input reduces to a value), and whenever it cannot produce any verses it
returns the bracketed sentinel — built from the original reference on the
simple-parse path, but from the cleaned (prefix-stripped) reference on the
complex path; otherwise it returns the formatted rendering of a non-empty
verse list.  The empty-string input with a failing provider yields exactly
"[Reading: ]". -/
theorem C2_sentinel_failure_policy :
    (∀ (fetch : Provider) (reference : Str),
      _get_reading_text fetch reference = sentinel reference ∨
      _get_reading_text fetch reference = sentinel (clean_reference reference) ∨
      ∃ l, l ≠ [] ∧ _get_reading_text fetch reference = format_reading_paragraph l) ∧
    _get_reading_text noProvider ("".toList) = "[Reading: ]".toList :=
  ⟨reading_text_disj, rfl⟩

/-- C6 (code bug): the "end" token never reaches the open-range branch of
`_get_reading_text`, because `_parse_reference` first runs
`_clean_verse_suffix`, which strips "end" to the empty string ("26-end"
becomes "26-"); `int('')` then raises and the whole resolution returns the
sentinel for every provider, instead of resolving to the chapter's maximum
integer verse key as the claim (and the source's own lines 95-101, now
unreachable) intend. -/
theorem C6_end_token_unreachable :
    clean_verse_suffix ("26-end".toList) = "26-".toList ∧
    ∀ fetch : Provider,
      _get_reading_text fetch ("Psalm 23:26-end".toList) =
        sentinel ("Psalm 23:26-end".toList) := by
  refine ⟨by decide, fun fetch => ?_⟩
  show (match fetch ("Psalms".toList) ("23".toList) with
        | none => sentinel ("Psalm 23:26-end".toList)
        | some chapterVerses =>
          match extractVerses chapterVerses ("26-".toList) with
          | none => sentinel ("Psalm 23:26-end".toList)
          | some verses_data => finishVerses ("Psalm 23:26-end".toList) verses_data) =
      sentinel ("Psalm 23:26-end".toList)
  cases fetch ("Psalms".toList) ("23".toList) with
  | none => rfl
  | some vs => rfl

/-- C8 (counterexample): prefix stripping is not limited to exactly one
strip: the cleaning loop keeps walking the prefix list after a successful
strip, so "First Reading: Gospel: John 3:16" loses *both* stacked
prefixes ("Gospel:" comes after "First Reading:" in the list), instead of
retaining the second prefix as the claim states. -/
theorem C8_counterexample :
    clean_reference ("First Reading: Gospel: John 3:16".toList) = "John 3:16".toList ∧
    clean_reference ("First Reading: Gospel: John 3:16".toList) ≠
      "Gospel: John 3:16".toList := by
  refine ⟨by decide, by decide⟩

/-- C8 (amended): `_clean_reference` strips whitespace and then makes one
pass over the fixed prefix list in order, case-sensitively removing each
listed prefix that matches the head of the current string at that point of
the pass.  Consequently a string matching no prefix is merely stripped;
stacked prefixes are *both* removed when the second occurs later in the
list than the first ("First Reading: Gospel: ..."), but the second is
retained when it occurs earlier in the list ("Gospel: First Reading: ...",
since the pass never restarts); matching is case-sensitive and anchored. -/
theorem C8_prefix_single_pass :
    (∀ reference : Str,
      (∀ p ∈ prefixes_to_remove, p.isPrefixOf (pyStrip reference) = false) →
      clean_reference reference = pyStrip reference) ∧
    clean_reference ("Gospel: First Reading: John 3:16".toList) =
      "First Reading: John 3:16".toList ∧
    clean_reference ("First Reading: Gospel: John 3:16".toList) = "John 3:16".toList ∧
    clean_reference ("first reading: John 3:16".toList) =
      "first reading: John 3:16".toList := by
  refine ⟨fun reference h => ?_, by decide, by decide, by decide⟩
  exact foldl_no_strip prefixes_to_remove (pyStrip reference) h

/-- C8 (witness): the single-pass theorem applied to a prefix-free input. -/
theorem C8_witness : clean_reference ("John 3:16".toList) = pyStrip ("John 3:16".toList) :=
  C8_prefix_single_pass.1 ("John 3:16".toList) (by decide)

/-- C9 (counterexample): in a range only the end endpoint is digit-stripped;
the start endpoint is passed through unchanged, so "2a-19b" cleans to
"2a-19", not to the claimed "2-19". -/
theorem C9_counterexample :
    clean_verse_suffix ("2a-19b".toList) = "2a-19".toList ∧
    clean_verse_suffix ("2a-19b".toList) ≠ "2-19".toList := by
  refine ⟨by decide, by decide⟩

/-- C9 (amended): `_clean_verse_suffix` strips every non-digit from a
verse token used as a single verse ("19a" becomes "19"); for a range it
splits at the first "-" and digit-strips only the *end* endpoint, leaving
the start endpoint exactly as written. -/
theorem C9_suffix_end_only :
    clean_verse_suffix ("19a".toList) = "19".toList ∧
    (∀ v : Str, v.contains '-' = false → clean_verse_suffix v = digitsOnly v) ∧
    (∀ s e : Str, s.contains '-' = false →
      clean_verse_suffix (s ++ '-' :: e) = s ++ '-' :: digitsOnly e) := by
  refine ⟨by decide, fun v h => ?_, fun s e h => ?_⟩
  · unfold clean_verse_suffix
    rw [if_neg (by simpa using h)]
  · unfold clean_verse_suffix
    rw [if_pos (contains_append_cons s e '-'), breakAtChar_append s e '-' h]

/-- C9 (witness): the range rule applied to a token with suffixes on both
endpoints. -/
theorem C9_witness :
    clean_verse_suffix ("3b".toList ++ '-' :: "7c".toList) =
      "3b".toList ++ '-' :: digitsOnly ("7c".toList) :=
  C9_suffix_end_only.2.2 ("3b".toList) ("7c".toList) (by decide)

/-- The `if verse_text:` test of the collection loops, as a predicate on a
verse number. -/
def presentVerse (vs : Verses) (n : Nat) : Bool :=
  match lookupVerse vs (natToStr n) with
  | some t => !t.isEmpty
  | none => false

/-- The records collected over a range carry exactly the present verse
numbers, in ascending range order. -/
lemma collectRange_map_verse (vs : Verses) (a b : Nat) :
    (collectRange vs a b).map VerseRecord.verse =
      ((List.range' a (b + 1 - a)).filter (presentVerse vs)).map natToStr := by
  unfold collectRange
  generalize List.range' a (b + 1 - a) = L
  induction L with
  | nil => rfl
  | cons n L ih =>
    simp only [List.filterMap_cons, List.filter_cons]
    cases hl : lookupVerse vs (natToStr n) with
    | none => simpa [presentVerse, hl] using ih
    | some t =>
      by_cases ht : t = []
      · subst ht
        simpa [presentVerse, hl] using ih
      · simpa [presentVerse, hl, ht] using ih

/-- C3: resolution of "Psalm 104:26-36,37" splits on the comma; the first
segment fixes the defaults Psalms 104 (book-name normalized); the bare
second segment reuses them; and the assembled verses are the range 26..36
followed by the single verse 37, in that source order — together with the
general fact that a collected range lists its verse numbers in ascending
range order (so no global re-sorting can occur). -/
theorem C3_discontinuous_segment_order :
    (∀ (fetch : Provider) (vs : Verses),
      fetch ("Psalms".toList) ("104".toList) = some vs →
      _get_reading_text fetch ("Psalm 104:26-36,37".toList) =
        finishVerses ("Psalm 104:26-36,37".toList)
          (collectRange vs 26 36 ++ collectSingle vs ("37".toList))) ∧
    (∀ (vs : Verses) (a b : Nat),
      (collectRange vs a b).map VerseRecord.verse =
        ((List.range' a (b + 1 - a)).filter (presentVerse vs)).map natToStr) := by
  refine ⟨fun fetch vs h => ?_, collectRange_map_verse⟩
  have p1 : partContribution fetch ("Psalms".toList) ("104".toList)
      ("Psalm 104:26-36".toList) = some (collectRange vs 26 36) := by
    show fetchExtract fetch ("Psalms".toList) ("104".toList) ("26-36".toList) = _
    unfold fetchExtract
    rw [h]
    rfl
  have p2 : partContribution fetch ("Psalms".toList) ("104".toList)
      ("37".toList) = some (collectSingle vs ("37".toList)) := by
    show fetchExtract fetch ("Psalms".toList) ("104".toList) ("37".toList) = _
    unfold fetchExtract
    rw [h]
    rfl
  have hAll : allParts fetch ("Psalms".toList) ("104".toList)
      ["Psalm 104:26-36".toList, "37".toList] =
      some (collectRange vs 26 36 ++ (collectSingle vs ("37".toList) ++ [])) := by
    simp only [allParts, p1, p2]
  show (match allParts fetch ("Psalms".toList) ("104".toList)
          ["Psalm 104:26-36".toList, "37".toList] with
        | none => sentinel ("Psalm 104:26-36,37".toList)
        | some l => finishVerses ("Psalm 104:26-36,37".toList) l) = _
  rw [hAll]
  simp only [List.append_nil]

/-- C3 (witness): the instance on a Psalter with verses 26..37 present. -/
def psalm104 : Verses :=
  (List.range' 26 12).map fun n => (natToStr n, "psalm text ".toList ++ natToStr n)

/-- A provider holding exactly Psalms 104. -/
def psalmProvider : Provider := fun b c =>
  if b = "Psalms".toList ∧ c = "104".toList then some psalm104 else none

/-- C3 (witness): the theorem applied to the concrete Psalms 104 provider. -/
theorem C3_witness :
    _get_reading_text psalmProvider ("Psalm 104:26-36,37".toList) =
      finishVerses ("Psalm 104:26-36,37".toList)
        (collectRange psalm104 26 36 ++ collectSingle psalm104 ("37".toList)) :=
  C3_discontinuous_segment_order.1 psalmProvider psalm104 (by decide)

/-- C4: a comma-free reference routed to the cross-chapter handler whose
trimmed form matches `Book C1:V1-C2:V2` resolves, when C1 = C2, to the
same-chapter range V1..V2 of chapter C1, and, when C1 ≠ C2, to the verses
of chapter C1 from V1 up to that chapter's maximum integer verse key
followed by the verses of chapter C2 from 1 up to V2, concatenated in that
order. -/
theorem C4_cross_chapter (fetch : Provider) (ref book : Str) (c1 v1 c2 v2 : Nat)
    (vs1 vs2 : Verses) (m : Nat)
    (h1 : (clean_reference ref).contains ',' = false)
    (h2 : (clean_reference ref).contains '-' = true)
    (h3 : (clean_reference ref).contains ':' = true)
    (h4 : 2 ≤ countChar ':' (clean_reference ref))
    (h5 : matchCrossChapter (pyStrip (clean_reference ref)) = some (book, c1, v1, c2, v2))
    (h6 : fetch book (natToStr c1) = some vs1)
    (h7 : fetch book (natToStr c2) = some vs2)
    (hm : maxIntKeys vs1 = some m) :
    _get_reading_text fetch ref =
      finishVerses (clean_reference ref)
        (if c1 = c2 then collectRange vs1 v1 v2
         else collectRange vs1 v1 m ++ collectRange vs2 1 v2) := by
  have hp : parse_reference (clean_reference ref) = none := by
    unfold parse_reference
    rw [if_neg (by simpa using h1), if_pos ⟨h2, h3, h4⟩]
  unfold _get_reading_text
  rw [hp]
  show handle_complex_reference fetch (clean_reference ref) = _
  unfold handle_complex_reference
  rw [if_neg (by simpa using h1), if_pos ⟨h2, h3, h4⟩]
  unfold handle_cross_chapter_reference
  rw [h5]
  dsimp only
  by_cases hc : c1 = c2
  · subst hc
    rw [if_pos rfl, if_pos rfl, h6]
  · rw [if_neg hc, if_neg hc, h6, h7]
    dsimp only
    rw [hm]

/-- John 3 with two verses, for the C4 witness. -/
def john3 : Verses :=
  [(natToStr 16, "For God so loved the world".toList),
   (natToStr 17, "For God sent not his Son".toList)]

/-- John 4 with one verse, for the C4 witness. -/
def john4 : Verses := [(natToStr 1, "When therefore the Lord knew".toList)]

/-- A provider holding John 3 and John 4. -/
def johnProvider : Provider := fun b c =>
  if b = "John".toList ∧ c = "3".toList then some john3
  else if b = "John".toList ∧ c = "4".toList then some john4
  else none

/-- C4 (witness): the cross-chapter theorem applied to "John 3:16-4:1". -/
theorem C4_witness :
    _get_reading_text johnProvider ("John 3:16-4:1".toList) =
      finishVerses (clean_reference ("John 3:16-4:1".toList))
        (if 3 = 4 then collectRange john3 16 1
         else collectRange john3 16 17 ++ collectRange john4 1 1) :=
  C4_cross_chapter johnProvider ("John 3:16-4:1".toList) ("John".toList) 3 16 4 1
    john3 john4 17 (by decide) (by decide) (by decide) (by decide) (by decide)
    (by decide) (by decide) (by decide)

/-- Splitting a collected range at an interior point. -/
lemma collectRange_split (vs : Verses) (a m b : Nat) (h1 : a ≤ m + 1) (h2 : m ≤ b) :
    collectRange vs a b = collectRange vs a m ++ collectRange vs (m + 1) b := by
  unfold collectRange
  rw [← List.filterMap_append]
  congr 1
  have e1 : a + (m + 1 - a) = m + 1 := by omega
  have h3 := List.range'_append_1 a (m + 1 - a) (b + 1 - (m + 1))
  rw [e1] at h3
  rw [h3]
  congr 1
  omega

/-- A one-point range over an absent (or empty-text) verse collects
nothing. -/
lemma collectRange_single_absent (vs : Verses) (n : Nat)
    (h : lookupVerse vs (natToStr n) = none ∨ lookupVerse vs (natToStr n) = some []) :
    collectRange vs n n = [] := by
  unfold collectRange
  have e : n + 1 - n = 1 := by omega
  rw [e, List.range'_one]
  rcases h with h | h <;> simp [h]

/-- C7: (i) a requested verse number that is absent from the mapping or
maps to empty text is silently skipped — the collected list is exactly the
concatenation of the collections on either side of it, so the ordering of
the other verses is untouched; (ii) a failed chapter fetch makes a
segment contribute no verses; (iii) such an empty contribution leaves the
processing of the sibling segments exactly as if the segment were not
there; (iv) `_handle_discontinuous_range` returns the sentinel or the
formatted rendering of a non-empty assembled list — never a sentinel for
a non-empty assembly. -/
theorem C7_silent_omission :
    (∀ (vs : Verses) (a b n : Nat), 1 ≤ n → a ≤ n → n ≤ b →
      (lookupVerse vs (natToStr n) = none ∨ lookupVerse vs (natToStr n) = some []) →
      collectRange vs a b = collectRange vs a (n - 1) ++ collectRange vs (n + 1) b) ∧
    (∀ (fetch : Provider) (b c vp : Str), fetch b c = none →
      fetchExtract fetch b c vp = some []) ∧
    (∀ (fetch : Provider) (book chapter p : Str) (rest : List Str),
      partContribution fetch book chapter p = some [] →
      allParts fetch book chapter (p :: rest) = allParts fetch book chapter rest) ∧
    (∀ (fetch : Provider) (r : Str),
      handle_discontinuous_range fetch r = sentinel r ∨
      ∃ l, l ≠ [] ∧ handle_discontinuous_range fetch r = format_reading_paragraph l) := by
  refine ⟨fun vs a b n hn han hnb hmiss => ?_, fun fetch b c vp h => ?_,
    fun fetch bk ch p rest h => ?_, discontinuous_disj⟩
  · have e1 := collectRange_split vs a (n - 1) b (by omega) (by omega)
    have e2 := collectRange_split vs n n b (by omega) hnb
    have hnn : n - 1 + 1 = n := by omega
    rw [hnn] at e1
    rw [e1, e2, collectRange_single_absent vs n hmiss]
    simp
  · unfold fetchExtract
    rw [h]
  · show (match partContribution fetch bk ch p with
          | none => none
          | some l =>
            match allParts fetch bk ch rest with
            | none => none
            | some r => some (l ++ r)) = allParts fetch bk ch rest
    rw [h]
    cases allParts fetch bk ch rest <;> simp

/-- C7 (witness): the silent-omission theorem applied at an absent verse
number, a failing provider, and a concrete discontinuous reference. -/
theorem C7_witness :
    collectRange john3 16 18 = collectRange john3 16 17 ++ collectRange john3 19 18 ∧
    fetchExtract noProvider ("X".toList) ("1".toList) ("5-7".toList) = some [] ∧
    allParts noProvider ("X".toList) ("1".toList) ["5-7".toList, "9".toList] =
      allParts noProvider ("X".toList) ("1".toList) ["9".toList] ∧
    (handle_discontinuous_range noProvider ("Psalm 1:1,2".toList) =
        sentinel ("Psalm 1:1,2".toList) ∨
      ∃ l, l ≠ [] ∧ handle_discontinuous_range noProvider ("Psalm 1:1,2".toList) =
        format_reading_paragraph l) :=
  ⟨C7_silent_omission.1 john3 16 18 18 (by decide) (by decide) (by decide)
      (Or.inl (by decide)),
   C7_silent_omission.2.1 noProvider ("X".toList) ("1".toList) ("5-7".toList) rfl,
   C7_silent_omission.2.2.1 noProvider ("X".toList) ("1".toList) ("5-7".toList)
      ["9".toList] (by decide),
   C7_silent_omission.2.2.2 noProvider ("Psalm 1:1,2".toList)⟩

/-- C10: `get_reading_contents` maps its input one-to-one: the output has
the same length and order; a string element becomes a record whose
`reference` field is that exact string, paired with its resolved text;
any other element passes through unchanged. -/
theorem C10_enrichment :
    ∀ {α : Type} (fetch : Provider) (readings : List (Reading α)) (i : Nat)
      (h1 : i < readings.length) (h2 : i < (get_reading_contents fetch readings).length),
      (get_reading_contents fetch readings).length = readings.length ∧
      (get_reading_contents fetch readings).get ⟨i, h2⟩ =
        (match readings.get ⟨i, h1⟩ with
         | .ref s => .enriched ⟨s, _get_reading_text fetch s⟩
         | .other o => .other o) := by
  intro α fetch readings i h1 h2
  refine ⟨by simp [get_reading_contents], ?_⟩
  simp [get_reading_contents]

/-- C10 (witness): the mapping theorem applied to a two-element list with
one string and one non-string element. -/
theorem C10_witness :
    (get_reading_contents noProvider [Reading.ref ("".toList), Reading.other 5]).length =
      ([Reading.ref ("".toList), Reading.other 5] : List (Reading Nat)).length ∧
    (get_reading_contents noProvider [Reading.ref ("".toList), Reading.other 5]).get
        ⟨1, by decide⟩ =
      (match ([Reading.ref ("".toList), Reading.other 5] : List (Reading Nat)).get
          ⟨1, by decide⟩ with
       | .ref s => .enriched ⟨s, _get_reading_text noProvider s⟩
       | .other o => .other o) :=
  C10_enrichment noProvider [Reading.ref ("".toList), Reading.other 5] 1
    (by decide) (by decide)

/-- Number of positions at which a pattern occurs in a string. -/
def countOccur (pat : Str) : Str → Nat
  | [] => 0
  | c :: rest => (if pat.isPrefixOf (c :: rest) then 1 else 0) + countOccur pat rest

/-- The markup of one verse record as amended: a record with falsy text
contributes nothing; a pilcrow-free text becomes one inline verse span
(with the nowrap treatment of the verse number and the first two words);
a text with pilcrows is split into its non-empty stripped parts, the first
rendered as an inline span and every later part rendered as a
close-paragraph/open-paragraph fragment followed by an inline span that
carries the same verse-number labeling as the first. -/
def claimVerseMarkup (v : VerseRecord) : Str :=
  if v.text = [] then []
  else
    if (pyStrip v.text).contains '¶' = true then
      match nonEmptyParts (pyStrip v.text) with
      | [] => []
      | p :: ps =>
        verseSpan v.verse p ++
          (ps.map fun q =>
            "</p><p class=\"reading-paragraph\">".toList ++ verseSpan v.verse q).flatten
    else verseSpan v.verse (pyStrip v.text)

/-- The formatter output as amended: exactly one opening paragraph wrapper
at the start, the verse markups in input order, and the final closing
tag. -/
def claimFormatMarkup (verses : List VerseRecord) : Str :=
  "<p class=\"reading-paragraph\">".toList ++
    (verses.map claimVerseMarkup).flatten ++ "</p>".toList

/-- Flattening the later-part fragments gives the amended per-part form. -/
lemma laterParts_flatten (number : Str) (ps : List Str) :
    (laterParts number ps).flatten =
      (ps.map fun q =>
        "</p><p class=\"reading-paragraph\">".toList ++ verseSpan number q).flatten := by
  induction ps with
  | nil => rfl
  | cons q qs ih => simp [laterParts, ih]

/-- The source's per-verse fragment list flattens to the amended per-verse
markup. -/
lemma verseHtmlParts_flatten (v : VerseRecord) :
    (verseHtmlParts v).flatten = claimVerseMarkup v := by
  by_cases h0 : v.text = []
  · simp [verseHtmlParts, claimVerseMarkup, h0]
  · by_cases h1 : '¶' ∈ pyStrip v.text
    · have h1b : (pyStrip v.text).contains '¶' = true := by simpa using h1
      cases hp : nonEmptyParts (pyStrip v.text) with
      | nil => simp [verseHtmlParts, claimVerseMarkup, h0, h1, h1b, hp]
      | cons p ps =>
        simp [verseHtmlParts, claimVerseMarkup, h0, h1, h1b, hp, laterParts_flatten]
    · have h1b : ¬ (pyStrip v.text).contains '¶' = true := by simpa using h1
      simp [verseHtmlParts, claimVerseMarkup, h0, h1, h1b]

/-- The whole body flattens verse by verse. -/
lemma body_flatten (vs : List VerseRecord) :
    ((vs.map verseHtmlParts).flatten).flatten = (vs.map claimVerseMarkup).flatten := by
  induction vs with
  | nil => rfl
  | cons v vs ih => simp [verseHtmlParts_flatten v, ih]

set_option maxRecDepth 8192 in
/-- C5 (counterexample): on a single verse whose text carries one pilcrow,
the verse-number label span occurs twice in the output — the claimed
"verse-number labeling applied to the first part only" is false, as the
full concrete output shows: the second paragraph repeats
`<span class="verse-number">1</span>`. -/
theorem C5_counterexample :
    countOccur ("<span class=\"verse-number\">".toList)
      (format_reading_paragraph [⟨"1".toList, "Hello ¶ world there".toList⟩]) = 2 ∧
    format_reading_paragraph [⟨"1".toList, "Hello ¶ world there".toList⟩] =
      ("<p class=\"reading-paragraph\"><span class=\"verse\"><span class=\"nowrap\"><span class=\"verse-number\">1</span> Hello</span></span>" ++
       "</p><p class=\"reading-paragraph\"><span class=\"verse\"><span class=\"nowrap\"><span class=\"verse-number\">1</span> world there</span> </span></p>").toList := by
  refine ⟨by decide, by decide⟩

/-- C5 (amended): for every non-empty record list the formatter emits one
opening paragraph wrapper, then per record — skipping records with falsy
text — either a single inline verse span (verse number plus first two
words wrapped in a "nowrap" span, remainder outside; the whole text inside
when there are fewer than two words, as `wrap_verse_with_nowrap` defines),
or, when the trimmed text carries pilcrows, its non-empty stripped parts
with each part after the first closing the current paragraph and opening a
new one — the verse-number labeling being applied to every non-empty part,
not only the first — and finally the closing tag. -/
theorem C5_formatter_markup (vs : List VerseRecord) (h : vs ≠ []) :
    format_reading_paragraph vs = claimFormatMarkup vs := by
  unfold format_reading_paragraph claimFormatMarkup
  rw [if_neg h]
  simp [body_flatten]

/-- C5 (witness): the formatter equality on a concrete two-record list with
one pilcrow text. -/
theorem C5_witness :
    format_reading_paragraph
        [⟨"1".toList, "In the beginning".toList⟩,
         ⟨"2".toList, "darkness ¶ was upon the deep".toList⟩] =
      claimFormatMarkup
        [⟨"1".toList, "In the beginning".toList⟩,
         ⟨"2".toList, "darkness ¶ was upon the deep".toList⟩] :=
  C5_formatter_markup
    [⟨"1".toList, "In the beginning".toList⟩,
     ⟨"2".toList, "darkness ¶ was upon the deep".toList⟩] (by decide)
